import Mathlib

/-
  Shallow embedding of the websocket-rs frame protocol engine.

  Source layout:
  - src/frame/opcode.rs   : Opcode enum and classification helpers
  - src/frame/mod.rs      : Frame struct, Frame::create_close_with_code
  - src/frame/builder.rs  : Builder (resumable frame decoder state machine)
  - src/codec.rs          : WebsocketCodec decode (frame_index bookkeeping) and encode
  - src/message.rs        : Message assembly and accessors
  - src/lib.rs            : Websocket::next read loop (control dispatch)

  Bytes are modelled as Nat (values &lt; 256 on the wire); machine-level panics
  of the Rust code (explicit `panic` calls, `get_u8` on an empty buffer,
  failed assertions) are made explicit with the PanicKind type; fallible
  constructors that assert in Rust return Option here.
-/

namespace Websocket

/-- Kinds of run-time aborts present in the Rust source (explicit panics and
buffer underflow of `get_u8` on an empty `BytesMut`). -/
inductive PanicKind where
  | bufUnderflow
  | unknownOpcode
  | unsupportedPayloadLen
  | maskNotSet
deriving DecidableEq, Repr

/-- src/frame/opcode.rs: the Opcode enum. -/
inductive Opcode where
  | Continuation
  | Text
  | Binary
  | RsvNonControl
  | Close
  | Ping
  | Pong
  | RsvControl
  | Unset
deriving DecidableEq, Repr

namespace Opcode

def is_continuation (o : Opcode) : Bool := o == Opcode.Continuation

def is_text (o : Opcode) : Bool := o == Opcode.Text

def is_binary (o : Opcode) : Bool := o == Opcode.Binary

def is_rsv_non_control (o : Opcode) : Bool := o == Opcode.RsvNonControl

def is_close (o : Opcode) : Bool := o == Opcode.Close

def is_ping (o : Opcode) : Bool := o == Opcode.Ping

def is_pong (o : Opcode) : Bool := o == Opcode.Pong

def is_rsv_control (o : Opcode) : Bool := o == Opcode.RsvControl

def is_control (o : Opcode) : Bool :=
  match o with
  | Opcode.Ping | Opcode.Pong | Opcode.Close | Opcode.RsvControl => true
  | _ => false

def is_unset (o : Opcode) : Bool := o == Opcode.Unset

end Opcode

/-- src/frame/mod.rs: the Frame struct (one wire frame). -/
structure Frame where
  fin : Bool
  rsv : Nat
  opcode : Opcode
  mask : Bool
  payload_len : Nat
  buf_len : Nat
  masking_key : List Nat
  buf : List Nat
deriving DecidableEq, Repr

namespace Frame

def is_last (f : Frame) : Bool := f.fin

def is_control (f : Frame) : Bool := f.opcode.is_control

def is_non_control (f : Frame) : Bool := !f.is_control

/-- src/frame/mod.rs: Frame::create_close_with_code — synthetic Close frame
whose payload is put_u16(code), big endian. -/
def create_close_with_code (code : Nat) : Frame :=
  let buf : List Nat := [code / 256 % 256, code % 256]
  { fin := true
    rsv := 0
    opcode := Opcode.Close
    mask := false
    payload_len := buf.length
    buf_len := buf.length
    masking_key := [0, 0, 0, 0]
    buf := buf }

end Frame

/-- src/frame/builder.rs: the Builder struct (decoder state machine). -/
structure Builder where
  frame_index : Nat
  first_byte_readed : Bool
  fin : Bool
  rsv : Nat
  opcode : Opcode
  second_byte_readed : Bool
  mask : Bool
  payload_len : Nat
  masking_key_readed : Bool
  masking_key : List Nat
  buf_len_readed : Bool
  buf_len : Nat
  buf : List Nat
deriving DecidableEq, Repr

namespace Builder

/-- The Default impl derived for Builder in Rust. -/
def init : Builder :=
  { frame_index := 0
    first_byte_readed := false
    fin := false
    rsv := 0
    opcode := Opcode.Unset
    second_byte_readed := false
    mask := false
    payload_len := 0
    masking_key_readed := false
    masking_key := [0, 0, 0, 0]
    buf_len_readed := false
    buf_len := 0
    buf := [] }

/-- src/frame/builder.rs: Builder::soft_reset. It does not touch
frame_index, and it also does not touch buf_len. -/
def soft_reset (s : Builder) : Builder :=
  { s with
    first_byte_readed := false
    fin := false
    rsv := 0
    opcode := Opcode.Unset
    second_byte_readed := false
    mask := false
    payload_len := 0
    masking_key_readed := false
    masking_key := [0, 0, 0, 0]
    buf_len_readed := false
    buf := [] }

end Builder

/-- The rolling XOR of the masking key over incoming payload bytes, keyed by
the global payload offset: inside Builder::_read_buf the loop does
buf[i-idx] ^= masking_key[i % 4] for i in idx..(idx+buf.len()). -/
def applyMask (key : List Nat) : Nat → List Nat → List Nat
  | _, [] => []
  | i, b :: rest => (b ^^^ key.getD (i % 4) 0) :: applyMask key (i + 1) rest

/-- src/frame/builder.rs: Builder::_read_fin — bit 7 of the first header
byte. -/
def read_fin (byte : Nat) : Bool := (0x80 &&& byte) >>> 7 != 0

/-- src/frame/builder.rs: Builder::_read_rsv — bits 6..4 of the first
header byte. -/
def read_rsv (byte : Nat) : Nat := (0x70 &&& byte) >>> 4

/-- src/frame/builder.rs: Builder::_read_mask — bit 7 of the second header
byte. -/
def read_mask (byte : Nat) : Bool := (0x80 &&& byte) >>> 7 != 0

/-- src/frame/builder.rs: Builder::_read_payload_len — bits 6..0 of the
second header byte. -/
def read_payload_len (byte : Nat) : Nat := 0x7F &&& byte

/-- src/frame/builder.rs: Builder::_read_opcode, the match on 0x0F & byte.
The final arm is the unreachable `panic` of the Rust match. -/
def read_opcode (byte : Nat) : Except PanicKind Opcode :=
  if 0x0F &&& byte = 0x0 then .ok Opcode.Continuation
  else if 0x0F &&& byte = 0x1 then .ok Opcode.Text
  else if 0x0F &&& byte = 0x2 then .ok Opcode.Binary
  else if 0x3 ≤ 0x0F &&& byte ∧ 0x0F &&& byte ≤ 0x7 then .ok Opcode.RsvNonControl
  else if 0x0F &&& byte = 0x8 then .ok Opcode.Close
  else if 0x0F &&& byte = 0x9 then .ok Opcode.Ping
  else if 0x0F &&& byte = 0xA then .ok Opcode.Pong
  else if 0xB ≤ 0x0F &&& byte ∧ 0x0F &&& byte ≤ 0xF then .ok Opcode.RsvControl
  else .error PanicKind.unknownOpcode

namespace Builder

/-- Result of one Builder::build call: new builder state, the emitted frame
(if any; none means "need more data"), and the bytes left in the caller's
buffer. -/
abbrev BuildResult := Except PanicKind (Builder × Option Frame × List Nat)

/-- Payload accumulation stage of Builder::build: the _read_buf call plus
frame emission. _read_buf panics when the mask flag is clear, XORs and
appends the whole remaining input to the accumulator, and reports
completion only when the accumulated length equals buf_len; on completion
build emits the Frame snapshot and `self.buf.split()` empties the
accumulator. -/
def stage5 (s : Builder) (buf : List Nat) : BuildResult :=
  if s.mask = false then .error PanicKind.maskNotSet
  else if (s.buf ++ applyMask s.masking_key s.buf.length buf).length ≠ s.buf_len then
    .ok ({ s with buf := s.buf ++ applyMask s.masking_key s.buf.length buf }, none, [])
  else
    .ok ({ s with buf := [] },
         some { fin := s.fin
                rsv := s.rsv
                opcode := s.opcode
                mask := s.mask
                payload_len := s.payload_len
                buf_len := s.buf_len
                masking_key := s.masking_key
                buf := s.buf ++ applyMask s.masking_key s.buf.length buf },
         [])

/-- Masking-key stage of Builder::build: _read_masking_key reads 4 raw bytes
once mask is set; with fewer than 4 bytes available it consumes nothing and
build returns "need more data". -/
def stage4 (s : Builder) (buf : List Nat) : BuildResult :=
  if s.mask = true ∧ s.masking_key_readed = false then
    match buf with
    | k0 :: k1 :: k2 :: k3 :: rest =>
      stage5 { s with masking_key := [k0, k1, k2, k3], masking_key_readed := true } rest
    | _ => .ok (s, none, buf)
  else stage5 s buf

/-- Extended-length stage of Builder::build: _read_buf_len resolves the
true payload length from the 7-bit field (0..=125 literal, 126 a 16-bit
big-endian extension, 127 a 64-bit big-endian extension); the final arm is
the `panic` of the Rust match. -/
def stage3 (s : Builder) (buf : List Nat) : BuildResult :=
  if s.buf_len_readed = false then
    if s.payload_len ≤ 125 then
      stage4 { s with buf_len := s.payload_len, buf_len_readed := true } buf
    else if s.payload_len = 126 then
      match buf with
      | b0 :: b1 :: rest =>
        stage4 { s with buf_len := b0 * 256 + b1, buf_len_readed := true } rest
      | _ => .ok (s, none, buf)
    else if s.payload_len = 127 then
      match buf with
      | b0 :: b1 :: b2 :: b3 :: b4 :: b5 :: b6 :: b7 :: rest =>
        stage4 { s with
                 buf_len := ((((((b0 * 256 + b1) * 256 + b2) * 256 + b3) * 256 + b4) * 256
                               + b5) * 256 + b6) * 256 + b7
                 buf_len_readed := true } rest
      | _ => .ok (s, none, buf)
    else .error PanicKind.unsupportedPayloadLen
  else stage4 s buf

/-- Second-header-byte stage of Builder::build: _read_mask and
_read_payload_len, then the control-frame validity check (control frames
must be final with a length field of at most 125, else a synthetic Close
with code 1002 is returned). -/
def stage2 (s : Builder) (buf : List Nat) : BuildResult :=
  if s.second_byte_readed = false then
    match buf with
    | [] => .ok (s, none, [])
    | byte :: rest =>
      if s.opcode.is_control = true ∧ (read_payload_len byte > 125 ∨ s.fin = false) then
        .ok ({ s with
               mask := read_mask byte
               payload_len := read_payload_len byte
               second_byte_readed := true },
             some (Frame.create_close_with_code 1002), rest)
      else
        stage3 { s with
                 mask := read_mask byte
                 payload_len := read_payload_len byte
                 second_byte_readed := true } rest
  else stage3 s buf

/-- src/frame/builder.rs: Builder::build. The first-header-byte stage reads
fin, rsv and the opcode; rsv bits or a reserved/ill-sequenced opcode
short-circuit into a synthetic Close with code 1002; the remaining stages
follow in order. get_u8 on an empty buffer is the bufUnderflow panic. -/
def build (s : Builder) (buf : List Nat) : BuildResult :=
  if s.first_byte_readed = false then
    match buf with
    | [] => .error PanicKind.bufUnderflow
    | byte :: rest =>
      if read_rsv byte ≠ 0 then
        .ok ({ s with fin := read_fin byte, rsv := read_rsv byte },
             some (Frame.create_close_with_code 1002), rest)
      else
        match read_opcode byte with
        | .error k => .error k
        | .ok op =>
          if (op = Opcode.RsvControl ∨ op = Opcode.RsvNonControl)
              ∨ (s.frame_index = 0 ∧ op = Opcode.Continuation)
              ∨ (s.frame_index > 0 ∧ (op = Opcode.Text ∨ op = Opcode.Binary)) then
            .ok ({ s with fin := read_fin byte, rsv := read_rsv byte, opcode := op },
                 some (Frame.create_close_with_code 1002), rest)
          else
            stage2 { s with
                     fin := read_fin byte
                     rsv := read_rsv byte
                     opcode := op
                     first_byte_readed := true } rest
  else stage2 s buf

end Builder

/-- src/codec.rs: WebsocketCodec::decode. Empty buffers yield no frame; on
an emitted frame the builder is soft_reset and frame_index is updated from
the frame and the pre-reset frame_index. -/
def decode (s : Builder) (buf : List Nat) : Builder.BuildResult :=
  if buf = [] then .ok (s, none, buf)
  else
    match Builder.build s buf with
    | .error k => .error k
    | .ok (s', none, rest) => .ok (s', none, rest)
    | .ok (s', some frame, rest) =>
      if (frame.fin = false
            ∧ (frame.opcode = Opcode.Text ∨ frame.opcode = Opcode.Binary
                ∨ frame.opcode = Opcode.Continuation))
          ∨ (s'.frame_index > 0 ∧ frame.opcode = Opcode.Ping) then
        .ok ({ Builder.soft_reset s' with frame_index := s'.frame_index + 1 },
             some frame, rest)
      else if frame.fin = true ∧ frame.opcode = Opcode.Continuation then
        .ok ({ Builder.soft_reset s' with frame_index := 0 }, some frame, rest)
      else .ok (Builder.soft_reset s', some frame, rest)

/-- Feeding a sequence of byte chunks through the codec: each chunk is
appended to the pending buffer and decode is run once (one decode per read
event), collecting emitted frames. -/
def feedChunks : Builder → List Nat → List (List Nat) →
    Except PanicKind (Builder × List Frame × List Nat)
  | s, pending, [] => .ok (s, [], pending)
  | s, pending, c :: cs =>
    match decode s (pending ++ c) with
    | .error k => .error k
    | .ok (s', mf, rest) =>
      match feedChunks s' rest cs with
      | .error k => .error k
      | .ok (s'', fs, pend') => .ok (s'', mf.toList ++ fs, pend')

/-- src/codec.rs: big-endian u16 serialization (put_u16 of the bytes crate). -/
def put_u16 (n : Nat) : List Nat := [n / 256 % 256, n % 256]

/-- src/codec.rs: big-endian u64 serialization (put_u64 of the bytes crate). -/
def put_u64 (n : Nat) : List Nat :=
  [n / 2 ^ 56 % 256, n / 2 ^ 48 % 256, n / 2 ^ 40 % 256, n / 2 ^ 32 % 256,
   n / 2 ^ 24 % 256, n / 2 ^ 16 % 256, n / 2 ^ 8 % 256, n % 256]

/-- src/message.rs: the Message struct. -/
structure Message where
  is_text : Bool
  is_binary : Bool
  is_close : Bool
  is_pong : Bool
  buf : List Nat
  frames : List Frame
deriving DecidableEq, Repr

namespace Message

/-- The Default impl derived for Message in Rust. -/
def mkDefault : Message :=
  { is_text := false
    is_binary := false
    is_close := false
    is_pong := false
    buf := []
    frames := [] }

/-- src/message.rs: Message::create_pong_from_ping_frame. The Rust assert
that the frame is a Ping is rendered as the none case. -/
def create_pong_from_ping_frame (frame : Frame) : Option Message :=
  if frame.opcode.is_ping = true then
    some { mkDefault with is_pong := true, buf := frame.buf }
  else none

/-- src/message.rs: Message::from_non_control_frames. The Rust assert that
the frame list is non-empty is rendered as the none case; the kind flags
come from the first frame's opcode. -/
def from_non_control_frames : List Frame → Option Message
  | [] => none
  | f0 :: rest =>
    some { mkDefault with
           is_text := f0.opcode.is_text
           is_binary := f0.opcode.is_binary
           frames := f0 :: rest }

/-- The hard-coded string the stub Message::text returns. -/
def helloString : String := "hello"

/-- src/message.rs: Message::text — asserts is_text and then returns the
literal String from the source, ignoring the accumulated frames. -/
def text (m : Message) : Option String :=
  if m.is_text = true then some helloString else none

/-- src/message.rs: Message::binary — asserts is_binary then concatenates
every accumulated frame's payload bytes in order. -/
def binary (m : Message) : Option (List Nat) :=
  if m.is_binary = true then
    some (m.frames.foldl (fun acc f => acc ++ f.buf) [])
  else none

/-- src/message.rs: Message::from_close. -/
def from_close (frame : Frame) : Message :=
  { mkDefault with is_close := true, buf := frame.buf }

/-- src/message.rs: Message::from_text — stores the UTF-8 bytes of the
text. -/
def from_text (text : String) : Message :=
  { mkDefault with is_text := true, buf := text.toUTF8.toList.map UInt8.toNat }

/-- src/message.rs: Message::from_binary — stores the bytes only in buf and
leaves frames empty. -/
def from_binary (bytes : List Nat) : Message :=
  { mkDefault with is_binary := true, buf := bytes }

end Message

/-- src/codec.rs: WebsocketCodec::encode. The final `unimplemented` arm for
a Message with no kind flag is rendered as none. -/
def encode (msg : Message) : Option (List Nat) :=
  let header :=
    if msg.is_close = true then some 0x88
    else if msg.is_text = true then some 0x81
    else if msg.is_binary = true then some 0x82
    else if msg.is_pong = true then some 0x8A
    else none
  match header with
  | none => none
  | some b1 =>
    let lenBytes :=
      if msg.buf.length > 65535 then 0x7F :: put_u64 msg.buf.length
      else if msg.buf.length > 125 then 0x7E :: put_u16 msg.buf.length
      else [msg.buf.length]
    some (b1 :: lenBytes ++ msg.buf)

/-- src/lib.rs: the loop body of Websocket::next, modelled over the list of
frames the codec will deliver. The outbound mpsc channel is modelled as the
list outs of enqueued Messages; the result carries the enqueued messages,
the application Message next returns (none when the loop ends), and the
frames left unread. The none result of the whole computation renders an
assert failure inside a Message constructor. -/
def nextLoop : List Frame → List Frame → List Message →
    Option (List Message × Option Message × List Frame)
  | [], _, outs => some (outs, none, [])
  | f :: rest, frames, outs =>
    if f.is_control = true then
      if f.opcode.is_close = true then
        some (outs ++ [Message.from_close f], none, rest)
      else if f.opcode.is_ping = true then
        match Message.create_pong_from_ping_frame f with
        | none => none
        | some pong => nextLoop rest frames (outs ++ [pong])
      else nextLoop rest frames outs
    else
      let frames' := frames ++ [f]
      if f.is_last = true then
        match Message.from_non_control_frames frames' with
        | none => none
        | some m => some (outs, some m, rest)
      else nextLoop rest frames' outs

/-- Spec-side description of the framing-rule violations of §4.1, on the
raw header bytes and the frame_index at the start of the frame: nonzero
rsv bits, a reserved opcode, a Continuation with no fragmented message in
progress, a Text/Binary mid-fragmentation, or a control frame that is
non-final or has a 7-bit length field above 125. -/
def violates_framing (fi b1 b2 : Nat) : Prop :=
  read_rsv b1 ≠ 0
  ∨ (read_rsv b1 = 0
      ∧ ((3 ≤ 0x0F &&& b1 ∧ 0x0F &&& b1 ≤ 7) ∨ (0xB ≤ 0x0F &&& b1 ∧ 0x0F &&& b1 ≤ 0xF)))
  ∨ (read_rsv b1 = 0 ∧ 0x0F &&& b1 = 0 ∧ fi = 0)
  ∨ (read_rsv b1 = 0 ∧ (0x0F &&& b1 = 1 ∨ 0x0F &&& b1 = 2) ∧ fi > 0)
  ∨ (read_rsv b1 = 0 ∧ (0x0F &&& b1 = 8 ∨ 0x0F &&& b1 = 9 ∨ 0x0F &&& b1 = 0xA)
      ∧ (read_payload_len b2 > 125 ∨ read_fin b1 = false))

/-- Spec-side frame_index update rule of §4.2, as the claim states it: a
cascade evaluated against the emitted frame and the prior frame_index. -/
def frame_index_rule (fi : Nat) (f : Frame) : Nat :=
  if f.fin = false
      ∧ (f.opcode = Opcode.Text ∨ f.opcode = Opcode.Binary
          ∨ f.opcode = Opcode.Continuation) then fi + 1
  else if fi > 0 ∧ f.opcode = Opcode.Ping then fi + 1
  else if f.fin = true ∧ f.opcode = Opcode.Continuation then 0
  else fi

/-- Spec-side length-prefix rule of §4.2: one byte for lengths up to 125,
0x7E plus 16-bit big endian up to 65535, 0x7F plus 64-bit big endian
above. -/
def length_encoding (n : Nat) : List Nat :=
  if n ≤ 125 then [n]
  else if n ≤ 65535 then [0x7E, n / 256, n % 256]
  else [0x7F, n / 2 ^ 56 % 256, n / 2 ^ 48 % 256, n / 2 ^ 40 % 256, n / 2 ^ 32 % 256,
        n / 2 ^ 24 % 256, n / 2 ^ 16 % 256, n / 2 ^ 8 % 256, n % 256]

/-- A Message carrying exactly one kind flag. -/
def exactlyOneKind (m : Message) : Prop :=
  (m.is_close = true ∧ m.is_text = false ∧ m.is_binary = false ∧ m.is_pong = false)
  ∨ (m.is_close = false ∧ m.is_text = true ∧ m.is_binary = false ∧ m.is_pong = false)
  ∨ (m.is_close = false ∧ m.is_text = false ∧ m.is_binary = true ∧ m.is_pong = false)
  ∨ (m.is_close = false ∧ m.is_text = false ∧ m.is_binary = false ∧ m.is_pong = true)

lemma foldl_append_buf (l : List Frame) (acc : List Nat) :
    l.foldl (fun a f => a ++ f.buf) acc = acc ++ (l.map Frame.buf).flatten := by
  induction l generalizing acc with
  | nil => simp
  | cons f tl ih => simp [List.foldl, ih (acc ++ f.buf)]

/-- C10: Message::binary on a Message built by Message::from_binary returns
the empty byte sequence, because from_binary stores the bytes only in buf
and leaves the frames list (which binary concatenates) empty. -/
theorem from_binary_binary_is_empty (b : List Nat) :
    (Message.from_binary b).binary = some []
      ∧ (Message.from_binary b).frames = []
      ∧ (Message.from_binary b).buf = b := by
  refine ⟨?_, rfl, rfl⟩
  simp [Message.from_binary, Message.binary, Message.mkDefault]

/-- C4 evaluation: on a Text message assembled from a single frame whose
payload bytes are 97, 98, 99 (the UTF-8 bytes of the string abc), the text
accessor returns the hard-coded string hello, not the UTF-8 decoding of
the concatenated payload. -/
theorem text_returns_hello_not_payload :
    ((Message.from_non_control_frames
        [{ fin := true, rsv := 0, opcode := Opcode.Text, mask := true,
           payload_len := 3, buf_len := 3, masking_key := [0, 0, 0, 0],
           buf := [97, 98, 99] }]).bind Message.text) = some Message.helloString
      ∧ Message.helloString ≠ "abc"
      ∧ ("abc".toList.map Char.toNat) = [97, 98, 99] :=
  ⟨rfl, by decide, by decide⟩

/-- C8: a Message assembled from a non-empty sequence of non-control frames
ending in a final frame takes its kind from the first frame's opcode, and
for a Binary message the binary accessor concatenates every frame's
payload bytes in arrival order. -/
theorem message_kind_and_binary_concat (f0 : Frame) (rest : List Frame)
    (_hfin : ∃ fl, (f0 :: rest).getLast? = some fl ∧ fl.fin = true)
    (_hnc : ∀ f ∈ f0 :: rest, f.opcode.is_control = false) :
    ∃ m, Message.from_non_control_frames (f0 :: rest) = some m
      ∧ (m.is_text = true ↔ f0.opcode = Opcode.Text)
      ∧ (m.is_binary = true ↔ f0.opcode = Opcode.Binary)
      ∧ (f0.opcode = Opcode.Binary →
          m.binary = some (((f0 :: rest).map Frame.buf).flatten)) := by
  refine ⟨_, rfl, ?_, ?_, ?_⟩
  · simp [Message.from_non_control_frames, Opcode.is_text]
  · simp [Message.from_non_control_frames, Opcode.is_binary]
  · intro hb
    simp [Message.from_non_control_frames, Message.binary, Opcode.is_binary, hb,
          foldl_append_buf]

/-- C9: in the next read loop, a Ping frame enqueues exactly one Pong
Message carrying the Ping payload and produces no application Message (the
loop continues on the remaining frames with the same fragment accumulator),
and a Close frame enqueues exactly one Close Message carrying the Close
payload and terminates the loop with the terminal signal, leaving the
remaining frames unread. -/
theorem next_ping_pong_close_dispatch :
    (∀ (f : Frame) (rest frames : List Frame) (outs : List Message),
        f.opcode = Opcode.Ping →
        ∃ pong, Message.create_pong_from_ping_frame f = some pong
          ∧ pong.is_pong = true ∧ pong.buf = f.buf
          ∧ nextLoop (f :: rest) frames outs = nextLoop rest frames (outs ++ [pong]))
    ∧ (∀ (f : Frame) (rest frames : List Frame) (outs : List Message),
        f.opcode = Opcode.Close →
        nextLoop (f :: rest) frames outs
            = some (outs ++ [Message.from_close f], none, rest)
          ∧ (Message.from_close f).is_close = true
          ∧ (Message.from_close f).buf = f.buf) := by
  constructor
  · intro f rest frames outs h
    refine ⟨{ Message.mkDefault with is_pong := true, buf := f.buf }, ?_, rfl, rfl, ?_⟩
    · simp [Message.create_pong_from_ping_frame, Opcode.is_ping, h]
    · simp [nextLoop, Frame.is_control, Opcode.is_control, Opcode.is_close,
            Opcode.is_ping, Message.create_pong_from_ping_frame, h]
  · intro f rest frames outs h
    refine ⟨?_, rfl, rfl⟩
    simp [nextLoop, Frame.is_control, Opcode.is_control, Opcode.is_close, h]

/-- C8 witness: the kind/concatenation theorem applied to a concrete
two-frame Binary sequence. -/
theorem message_kind_and_binary_concat_witness :
    ∃ m, Message.from_non_control_frames
          [{ fin := false, rsv := 0, opcode := Opcode.Binary, mask := true,
             payload_len := 2, buf_len := 2, masking_key := [0, 0, 0, 0], buf := [1, 2] },
           { fin := true, rsv := 0, opcode := Opcode.Continuation, mask := true,
             payload_len := 1, buf_len := 1, masking_key := [0, 0, 0, 0], buf := [3] }]
        = some m
      ∧ (m.is_text = true ↔
          ({ fin := false, rsv := 0, opcode := Opcode.Binary, mask := true,
             payload_len := 2, buf_len := 2, masking_key := [0, 0, 0, 0],
             buf := [1, 2] } : Frame).opcode = Opcode.Text)
      ∧ (m.is_binary = true ↔
          ({ fin := false, rsv := 0, opcode := Opcode.Binary, mask := true,
             payload_len := 2, buf_len := 2, masking_key := [0, 0, 0, 0],
             buf := [1, 2] } : Frame).opcode = Opcode.Binary)
      ∧ (({ fin := false, rsv := 0, opcode := Opcode.Binary, mask := true,
            payload_len := 2, buf_len := 2, masking_key := [0, 0, 0, 0],
            buf := [1, 2] } : Frame).opcode = Opcode.Binary →
          m.binary = some
            (([{ fin := false, rsv := 0, opcode := Opcode.Binary, mask := true,
                 payload_len := 2, buf_len := 2, masking_key := [0, 0, 0, 0],
                 buf := [1, 2] },
               { fin := true, rsv := 0, opcode := Opcode.Continuation, mask := true,
                 payload_len := 1, buf_len := 1, masking_key := [0, 0, 0, 0],
                 buf := [3] }] : List Frame).map Frame.buf).flatten) :=
  message_kind_and_binary_concat _ _ ⟨_, rfl, rfl⟩ (by decide)

/-- C9 witness: the dispatch theorem applied to a concrete Ping frame and a
concrete Close frame. -/
theorem next_ping_pong_close_dispatch_witness :
    (∃ pong, Message.create_pong_from_ping_frame
          { fin := true, rsv := 0, opcode := Opcode.Ping, mask := true,
            payload_len := 2, buf_len := 2, masking_key := [1, 2, 3, 4], buf := [5, 6] }
        = some pong
      ∧ pong.is_pong = true
      ∧ pong.buf = ({ fin := true, rsv := 0, opcode := Opcode.Ping, mask := true,
                      payload_len := 2, buf_len := 2, masking_key := [1, 2, 3, 4],
                      buf := [5, 6] } : Frame).buf
      ∧ nextLoop
          [{ fin := true, rsv := 0, opcode := Opcode.Ping, mask := true,
             payload_len := 2, buf_len := 2, masking_key := [1, 2, 3, 4], buf := [5, 6] }]
          [] []
        = nextLoop [] [] ([] ++ [pong]))
    ∧ (nextLoop
          [{ fin := true, rsv := 0, opcode := Opcode.Close, mask := true,
             payload_len := 1, buf_len := 1, masking_key := [1, 2, 3, 4], buf := [9] }]
          [] []
        = some ([] ++ [Message.from_close
            { fin := true, rsv := 0, opcode := Opcode.Close, mask := true,
              payload_len := 1, buf_len := 1, masking_key := [1, 2, 3, 4], buf := [9] }],
            none, [])
      ∧ (Message.from_close
          { fin := true, rsv := 0, opcode := Opcode.Close, mask := true,
            payload_len := 1, buf_len := 1, masking_key := [1, 2, 3, 4],
            buf := [9] }).is_close = true
      ∧ (Message.from_close
          { fin := true, rsv := 0, opcode := Opcode.Close, mask := true,
            payload_len := 1, buf_len := 1, masking_key := [1, 2, 3, 4],
            buf := [9] }).buf
        = ({ fin := true, rsv := 0, opcode := Opcode.Close, mask := true,
             payload_len := 1, buf_len := 1, masking_key := [1, 2, 3, 4],
             buf := [9] } : Frame).buf) :=
  ⟨next_ping_pong_close_dispatch.1 _ [] [] [] rfl,
   next_ping_pong_close_dispatch.2 _ [] [] [] rfl⟩

/-- C5: on a Message with exactly one kind flag, encode writes one frame:
the literal first byte for the kind, then the RFC 6455 length prefix
(single byte up to 125, 0x7E plus 16-bit big endian up to 65535, 0x7F plus
64-bit big endian above), never setting the mask bit, then the payload
verbatim. -/
theorem encode_single_frame (m : Message) (h : exactlyOneKind m) :
    ∃ b1, encode m = some (b1 :: length_encoding m.buf.length ++ m.buf)
      ∧ (m.is_close = true → b1 = 0x88)
      ∧ (m.is_text = true → b1 = 0x81)
      ∧ (m.is_binary = true → b1 = 0x82)
      ∧ (m.is_pong = true → b1 = 0x8A)
      ∧ (∀ x, (length_encoding m.buf.length).head? = some x → x < 0x80) := by
  have hlen : (if m.buf.length > 65535 then 0x7F :: put_u64 m.buf.length
               else if m.buf.length > 125 then 0x7E :: put_u16 m.buf.length
               else [m.buf.length]) = length_encoding m.buf.length := by
    unfold length_encoding put_u64 put_u16
    rcases le_or_lt m.buf.length 125 with h1 | h1
    · rw [if_neg (by omega), if_neg (by omega), if_pos h1]
    · rcases le_or_lt m.buf.length 65535 with h2 | h2
      · rw [if_neg (by omega), if_pos (by omega), if_neg (by omega), if_pos h2]
        have : m.buf.length / 256 < 256 := by omega
        rw [Nat.mod_eq_of_lt this]
      · rw [if_pos (by omega), if_neg (by omega), if_neg (by omega)]
  have hhead : ∀ x, (length_encoding m.buf.length).head? = some x → x < 0x80 := by
    intro x hx
    unfold length_encoding at hx
    split_ifs at hx with h1 h2 <;> simp_all <;> omega
  rcases h with ⟨h1, h2, h3, h4⟩ | ⟨h1, h2, h3, h4⟩ | ⟨h1, h2, h3, h4⟩ | ⟨h1, h2, h3, h4⟩
  · exact ⟨0x88, by simp [encode, h1, hlen], fun _ => rfl, by simp [h2], by simp [h3],
           by simp [h4], hhead⟩
  · exact ⟨0x81, by simp [encode, h1, h2, hlen], by simp [h1], fun _ => rfl, by simp [h3],
           by simp [h4], hhead⟩
  · exact ⟨0x82, by simp [encode, h1, h2, h3, hlen], by simp [h1], by simp [h2],
           fun _ => rfl, by simp [h4], hhead⟩
  · exact ⟨0x8A, by simp [encode, h1, h2, h3, h4, hlen], by simp [h1], by simp [h2],
           by simp [h3], fun _ => rfl, hhead⟩

/-- C5 witness: the encode theorem applied to a concrete Text message. -/
theorem encode_single_frame_witness :
    ∃ b1, encode { Message.mkDefault with is_text := true, buf := [97, 98, 99] }
        = some (b1 :: length_encoding
            ({ Message.mkDefault with is_text := true, buf := [97, 98, 99] } : Message).buf.length
          ++ ({ Message.mkDefault with is_text := true, buf := [97, 98, 99] } : Message).buf)
      ∧ (({ Message.mkDefault with is_text := true, buf := [97, 98, 99] } : Message).is_close = true → b1 = 0x88)
      ∧ (({ Message.mkDefault with is_text := true, buf := [97, 98, 99] } : Message).is_text = true → b1 = 0x81)
      ∧ (({ Message.mkDefault with is_text := true, buf := [97, 98, 99] } : Message).is_binary = true → b1 = 0x82)
      ∧ (({ Message.mkDefault with is_text := true, buf := [97, 98, 99] } : Message).is_pong = true → b1 = 0x8A)
      ∧ (∀ x, (length_encoding
            ({ Message.mkDefault with is_text := true, buf := [97, 98, 99] } : Message).buf.length).head?
          = some x → x < 0x80) :=
  encode_single_frame _ (Or.inr (Or.inl (by decide)))

lemma read_opcode_cont {b : Nat} (h : 0x0F &&& b = 0) :
    read_opcode b = .ok Opcode.Continuation := by
  simp [read_opcode, h]

lemma read_opcode_text {b : Nat} (h : 0x0F &&& b = 1) :
    read_opcode b = .ok Opcode.Text := by
  simp [read_opcode, h]

lemma read_opcode_bin {b : Nat} (h : 0x0F &&& b = 2) :
    read_opcode b = .ok Opcode.Binary := by
  simp [read_opcode, h]

lemma read_opcode_rsvnc {b : Nat} (h3 : 3 ≤ 0x0F &&& b) (h7 : 0x0F &&& b ≤ 7) :
    read_opcode b = .ok Opcode.RsvNonControl := by
  unfold read_opcode
  rw [if_neg (by omega), if_neg (by omega), if_neg (by omega), if_pos ⟨h3, h7⟩]

lemma read_opcode_close {b : Nat} (h : 0x0F &&& b = 8) :
    read_opcode b = .ok Opcode.Close := by
  simp [read_opcode, h]

lemma read_opcode_ping {b : Nat} (h : 0x0F &&& b = 9) :
    read_opcode b = .ok Opcode.Ping := by
  simp [read_opcode, h]

lemma read_opcode_pong {b : Nat} (h : 0x0F &&& b = 0xA) :
    read_opcode b = .ok Opcode.Pong := by
  simp [read_opcode, h]

lemma read_opcode_rsvc {b : Nat} (hB : 0xB ≤ 0x0F &&& b) (hF : 0x0F &&& b ≤ 0xF) :
    read_opcode b = .ok Opcode.RsvControl := by
  unfold read_opcode
  rw [if_neg (by omega), if_neg (by omega), if_neg (by omega), if_neg (by omega),
      if_neg (by omega), if_neg (by omega), if_neg (by omega), if_pos ⟨hB, hF⟩]

/-- The soft_reset shape of the builder state at a frame boundary: parse
flags clear, with an arbitrary frame_index and an arbitrary stale buf_len
(soft_reset clears every stage flag but preserves frame_index and leaves
buf_len behind). -/
def reset_builder (fi bl : Nat) : Builder :=
  { frame_index := fi, first_byte_readed := false, fin := false, rsv := 0,
    opcode := Opcode.Unset, second_byte_readed := false, mask := false,
    payload_len := 0, masking_key_readed := false, masking_key := [0, 0, 0, 0],
    buf_len_readed := false, buf_len := bl, buf := [] }

/-- The frame a build/decode result carries: none both for "need more data"
and for a panic, so an equation emitted r = some f also rules out the
panic outcome. -/
def emitted (r : Builder.BuildResult) : Option Frame :=
  match r with
  | .ok (_, mf, _) => mf
  | .error _ => none

/-- C1: from a builder at a frame boundary with any frame_index and any
stale buf_len, header bytes violating the framing rules make build return
(as a normal ok value, not an error) the synthetic Close frame for code
1002: fin set, Close opcode, payload exactly the two big-endian bytes
0x03 0xEA of 1002. -/
theorem build_violation_synthesizes_close_1002 (fi bl b1 b2 : Nat) (rest : List Nat)
    (h : violates_framing fi b1 b2) :
    emitted (Builder.build (reset_builder fi bl) (b1 :: b2 :: rest))
        = some (Frame.create_close_with_code 1002)
      ∧ (Frame.create_close_with_code 1002).fin = true
      ∧ (Frame.create_close_with_code 1002).opcode = Opcode.Close
      ∧ (Frame.create_close_with_code 1002).buf = [0x03, 0xEA] := by
  refine ⟨?_, rfl, rfl, rfl⟩
  rcases h with h | ⟨h0, ⟨h3, h7⟩ | ⟨hB, hF⟩⟩ | ⟨h0, h1, h2⟩ | ⟨h0, h1 | h1, h2⟩
    | ⟨h0, h1 | h1 | h1, h2⟩
  · simp [Builder.build, reset_builder, emitted, h]
  · simp [Builder.build, reset_builder, emitted, h0, read_opcode_rsvnc h3 h7]
  · simp [Builder.build, reset_builder, emitted, h0, read_opcode_rsvc hB hF]
  · simp [Builder.build, reset_builder, emitted, h0, read_opcode_cont h1, h2]
  · simp [Builder.build, reset_builder, emitted, h0, read_opcode_text h1, h2,
          Nat.pos_iff_ne_zero.mp h2]
  · simp [Builder.build, reset_builder, emitted, h0, read_opcode_bin h1, h2,
          Nat.pos_iff_ne_zero.mp h2]
  · simp [Builder.build, reset_builder, emitted, h0, read_opcode_close h1,
          Builder.stage2, Opcode.is_control, h2]
  · simp [Builder.build, reset_builder, emitted, h0, read_opcode_ping h1,
          Builder.stage2, Opcode.is_control, h2]
  · simp [Builder.build, reset_builder, emitted, h0, read_opcode_pong h1,
          Builder.stage2, Opcode.is_control, h2]

/-- C1 witness: the violation theorem applied to a concrete nonzero-rsv
byte. -/
theorem build_violation_synthesizes_close_1002_witness :
    emitted (Builder.build (reset_builder 0 0) (0x91 :: 0x00 :: []))
        = some (Frame.create_close_with_code 1002)
      ∧ (Frame.create_close_with_code 1002).fin = true
      ∧ (Frame.create_close_with_code 1002).opcode = Opcode.Close
      ∧ (Frame.create_close_with_code 1002).buf = [0x03, 0xEA] :=
  build_violation_synthesizes_close_1002 0 0 0x91 0x00 [] (Or.inl (by decide))


lemma stage5_frame_index {s : Builder} {buf : List Nat} {t : Builder}
    {mf : Option Frame} {L : List Nat}
    (h : Builder.stage5 s buf = .ok (t, mf, L)) : t.frame_index = s.frame_index := by
  unfold Builder.stage5 at h
  split at h
  · simp at h
  · split at h
    · simp only [Except.ok.injEq, Prod.mk.injEq] at h
      obtain ⟨h1, -, -⟩ := h
      subst h1
      rfl
    · simp only [Except.ok.injEq, Prod.mk.injEq] at h
      obtain ⟨h1, -, -⟩ := h
      subst h1
      rfl

lemma stage4_frame_index {s : Builder} {buf : List Nat} {t : Builder}
    {mf : Option Frame} {L : List Nat}
    (h : Builder.stage4 s buf = .ok (t, mf, L)) : t.frame_index = s.frame_index := by
  unfold Builder.stage4 at h
  split at h
  · split at h
    · rw [stage5_frame_index h]
    · simp only [Except.ok.injEq, Prod.mk.injEq] at h
      obtain ⟨h1, -, -⟩ := h
      subst h1
      rfl
  · rw [stage5_frame_index h]

lemma stage3_frame_index {s : Builder} {buf : List Nat} {t : Builder}
    {mf : Option Frame} {L : List Nat}
    (h : Builder.stage3 s buf = .ok (t, mf, L)) : t.frame_index = s.frame_index := by
  unfold Builder.stage3 at h
  split at h
  · split at h
    · rw [stage4_frame_index h]
    · split at h
      · split at h
        · rw [stage4_frame_index h]
        · simp only [Except.ok.injEq, Prod.mk.injEq] at h
          obtain ⟨h1, -, -⟩ := h
          subst h1
          rfl
      · split at h
        · split at h
          · rw [stage4_frame_index h]
          · simp only [Except.ok.injEq, Prod.mk.injEq] at h
            obtain ⟨h1, -, -⟩ := h
            subst h1
            rfl
        · simp at h
  · rw [stage4_frame_index h]

lemma stage2_frame_index {s : Builder} {buf : List Nat} {t : Builder}
    {mf : Option Frame} {L : List Nat}
    (h : Builder.stage2 s buf = .ok (t, mf, L)) : t.frame_index = s.frame_index := by
  unfold Builder.stage2 at h
  split at h
  · split at h
    · simp only [Except.ok.injEq, Prod.mk.injEq] at h
      obtain ⟨h1, -, -⟩ := h
      subst h1
      rfl
    · split at h
      · simp only [Except.ok.injEq, Prod.mk.injEq] at h
        obtain ⟨h1, -, -⟩ := h
        subst h1
        rfl
      · rw [stage3_frame_index h]
  · rw [stage3_frame_index h]

lemma build_frame_index {s : Builder} {buf : List Nat} {t : Builder}
    {mf : Option Frame} {L : List Nat}
    (h : Builder.build s buf = .ok (t, mf, L)) : t.frame_index = s.frame_index := by
  unfold Builder.build at h
  split at h
  · split at h
    · simp at h
    · split at h
      · simp only [Except.ok.injEq, Prod.mk.injEq] at h
        obtain ⟨h1, -, -⟩ := h
        subst h1
        rfl
      · split at h
        · simp at h
        · split at h
          · simp only [Except.ok.injEq, Prod.mk.injEq] at h
            obtain ⟨h1, -, -⟩ := h
            subst h1
            rfl
          · rw [stage2_frame_index h]
  · rw [stage2_frame_index h]


/-- C6: after each frame emitted by decode, frame_index is updated exactly
once by the claim cascade (incremented for a non-final Text/Binary/
Continuation frame, incremented for a Ping when the prior frame_index was
positive, zeroed for a final Continuation, otherwise unchanged), evaluated
against the frame just produced and the frame_index before it; and
soft_reset never modifies frame_index. -/
theorem decode_frame_index_rule :
    (∀ (s : Builder) (buf : List Nat) (t : Builder) (f : Frame) (L : List Nat),
        decode s buf = .ok (t, some f, L) →
        t.frame_index = frame_index_rule s.frame_index f)
    ∧ ∀ s : Builder, (Builder.soft_reset s).frame_index = s.frame_index := by
  refine ⟨?_, fun s => rfl⟩
  intro s buf t f L h
  unfold decode at h
  split at h
  · simp at h
  · split at h
    · simp at h
    · simp at h
    · rename_i s' frame rest heq
      have hfi : s'.frame_index = s.frame_index := build_frame_index heq
      split at h
      · rename_i hcond
        simp only [Except.ok.injEq, Prod.mk.injEq, Option.some.injEq] at h
        obtain ⟨h1, h2, -⟩ := h
        subst h1
        subst h2
        show s'.frame_index + 1 = frame_index_rule s.frame_index frame
        unfold frame_index_rule
        rcases hcond with hA | hB
        · rw [if_pos hA, hfi]
        · by_cases hA' : frame.fin = false
              ∧ (frame.opcode = Opcode.Text ∨ frame.opcode = Opcode.Binary
                  ∨ frame.opcode = Opcode.Continuation)
          · rw [if_pos hA', hfi]
          · rw [if_neg hA', if_pos ⟨by omega, hB.2⟩, hfi]
      · rename_i hcond1
        split at h
        · rename_i hcond2
          simp only [Except.ok.injEq, Prod.mk.injEq, Option.some.injEq] at h
          obtain ⟨h1, h2, -⟩ := h
          subst h1
          subst h2
          show (0 : Nat) = frame_index_rule s.frame_index frame
          unfold frame_index_rule
          rw [if_neg (fun hc => absurd hcond2.1 (by simp [hc.1])),
              if_neg (fun hc => absurd hcond2.2 (by simp [hc.2])),
              if_pos hcond2]
        · rename_i hcond2
          simp only [Except.ok.injEq, Prod.mk.injEq, Option.some.injEq] at h
          obtain ⟨h1, h2, -⟩ := h
          subst h1
          subst h2
          show (Builder.soft_reset s').frame_index = frame_index_rule s.frame_index frame
          unfold frame_index_rule
          rw [if_neg (fun hc => hcond1 (Or.inl hc)),
              if_neg (fun hc => hcond1 (Or.inr ⟨by omega, hc.2⟩)),
              if_neg hcond2]
          exact hfi


/-- C6 witness: the frame_index rule theorem applied to a concrete masked
Ping frame decoded from a fresh builder. -/
theorem decode_frame_index_rule_witness :
    Builder.init.frame_index
      = frame_index_rule Builder.init.frame_index
          { fin := true, rsv := 0, opcode := Opcode.Ping, mask := true,
            payload_len := 0, buf_len := 0, masking_key := [1, 2, 3, 4], buf := [] } :=
  decode_frame_index_rule.1 Builder.init [0x89, 0x80, 1, 2, 3, 4] Builder.init
    { fin := true, rsv := 0, opcode := Opcode.Ping, mask := true,
      payload_len := 0, buf_len := 0, masking_key := [1, 2, 3, 4], buf := [] }
    [] (by rfl)


lemma stage5_error {s : Builder} {buf : List Nat} {k : PanicKind}
    (h : Builder.stage5 s buf = .error k) : k = PanicKind.maskNotSet := by
  unfold Builder.stage5 at h
  split at h
  · simp only [Except.error.injEq] at h
    exact h.symm
  · split at h
    · simp at h
    · simp at h

lemma stage4_error {s : Builder} {buf : List Nat} {k : PanicKind}
    (h : Builder.stage4 s buf = .error k) : k = PanicKind.maskNotSet := by
  unfold Builder.stage4 at h
  split at h
  · split at h
    · exact stage5_error h
    · simp at h
  · exact stage5_error h

lemma stage3_error {s : Builder} {buf : List Nat} {k : PanicKind}
    (hpl : s.payload_len ≤ 127)
    (h : Builder.stage3 s buf = .error k) : k = PanicKind.maskNotSet := by
  unfold Builder.stage3 at h
  split at h
  · split at h
    · exact stage4_error h
    · split at h
      · split at h
        · exact stage4_error h
        · simp at h
      · split at h
        · split at h
          · exact stage4_error h
          · simp at h
        · rename_i h1 h2 h3
          exact ((by omega : False)).elim
  · exact stage4_error h

lemma stage2_error {s : Builder} {buf : List Nat} {k : PanicKind}
    (hpl : s.payload_len ≤ 127)
    (h : Builder.stage2 s buf = .error k) : k = PanicKind.maskNotSet := by
  unfold Builder.stage2 at h
  split at h
  · split at h
    · simp at h
    · split at h
      · simp at h
      · refine stage3_error ?_ h
        show read_payload_len _ ≤ 127
        unfold read_payload_len
        exact Nat.and_le_left
  · exact stage3_error hpl h

lemma read_opcode_no_error {byte : Nat} {k : PanicKind}
    (h : read_opcode byte = .error k) : False := by
  unfold read_opcode at h
  have hb : 0x0F &&& byte ≤ 0x0F := Nat.and_le_left
  split_ifs at h
  omega

lemma build_error {s : Builder} {buf : List Nat} {k : PanicKind}
    (hpl : s.payload_len ≤ 127) (hne : s.first_byte_readed = false → buf ≠ [])
    (h : Builder.build s buf = .error k) : k = PanicKind.maskNotSet := by
  unfold Builder.build at h
  split at h
  · rename_i hfb
    split at h
    · exact absurd rfl (hne hfb)
    · split at h
      · simp at h
      · split at h
        · rename_i heq
          exact absurd heq read_opcode_no_error
        · split at h
          · simp at h
          · refine stage2_error ?_ h
            exact hpl
  · exact stage2_error hpl h


lemma stage5_payload_len {s : Builder} {buf : List Nat} {t : Builder}
    {mf : Option Frame} {L : List Nat}
    (h : Builder.stage5 s buf = .ok (t, mf, L)) : t.payload_len = s.payload_len := by
  unfold Builder.stage5 at h
  split at h
  · simp at h
  · split at h <;>
      (simp only [Except.ok.injEq, Prod.mk.injEq] at h;
       obtain ⟨h1, -, -⟩ := h; subst h1; rfl)

lemma stage4_payload_len {s : Builder} {buf : List Nat} {t : Builder}
    {mf : Option Frame} {L : List Nat}
    (h : Builder.stage4 s buf = .ok (t, mf, L)) : t.payload_len = s.payload_len := by
  unfold Builder.stage4 at h
  split at h
  · split at h
    · rw [stage5_payload_len h]
    · simp only [Except.ok.injEq, Prod.mk.injEq] at h
      obtain ⟨h1, -, -⟩ := h
      subst h1
      rfl
  · rw [stage5_payload_len h]

lemma stage3_payload_len {s : Builder} {buf : List Nat} {t : Builder}
    {mf : Option Frame} {L : List Nat}
    (h : Builder.stage3 s buf = .ok (t, mf, L)) : t.payload_len = s.payload_len := by
  unfold Builder.stage3 at h
  split at h
  · split at h
    · rw [stage4_payload_len h]
    · split at h
      · split at h
        · rw [stage4_payload_len h]
        · simp only [Except.ok.injEq, Prod.mk.injEq] at h
          obtain ⟨h1, -, -⟩ := h
          subst h1
          rfl
      · split at h
        · split at h
          · rw [stage4_payload_len h]
          · simp only [Except.ok.injEq, Prod.mk.injEq] at h
            obtain ⟨h1, -, -⟩ := h
            subst h1
            rfl
        · simp at h
  · rw [stage4_payload_len h]

lemma stage2_payload_le {s : Builder} {buf : List Nat} {t : Builder}
    {mf : Option Frame} {L : List Nat}
    (hpl : s.payload_len ≤ 127)
    (h : Builder.stage2 s buf = .ok (t, mf, L)) : t.payload_len ≤ 127 := by
  unfold Builder.stage2 at h
  split at h
  · split at h
    · simp only [Except.ok.injEq, Prod.mk.injEq] at h
      obtain ⟨h1, -, -⟩ := h
      subst h1
      exact hpl
    · split at h
      · simp only [Except.ok.injEq, Prod.mk.injEq] at h
        obtain ⟨h1, -, -⟩ := h
        subst h1
        show read_payload_len _ ≤ 127
        unfold read_payload_len
        exact Nat.and_le_left
      · rw [stage3_payload_len h]
        show read_payload_len _ ≤ 127
        unfold read_payload_len
        exact Nat.and_le_left
  · rw [stage3_payload_len h]
    exact hpl

lemma build_payload_le {s : Builder} {buf : List Nat} {t : Builder}
    {mf : Option Frame} {L : List Nat}
    (hpl : s.payload_len ≤ 127)
    (h : Builder.build s buf = .ok (t, mf, L)) : t.payload_len ≤ 127 := by
  unfold Builder.build at h
  split at h
  · split at h
    · simp at h
    · split at h
      · simp only [Except.ok.injEq, Prod.mk.injEq] at h
        obtain ⟨h1, -, -⟩ := h
        subst h1
        exact hpl
      · split at h
        · simp at h
        · split at h
          · simp only [Except.ok.injEq, Prod.mk.injEq] at h
            obtain ⟨h1, -, -⟩ := h
            subst h1
            exact hpl
          · refine stage2_payload_le ?_ h
            exact hpl
  · exact stage2_payload_le hpl h

lemma decode_payload_le {s : Builder} {buf : List Nat} {t : Builder}
    {mf : Option Frame} {L : List Nat}
    (hpl : s.payload_len ≤ 127)
    (h : decode s buf = .ok (t, mf, L)) : t.payload_len ≤ 127 := by
  unfold decode at h
  split at h
  · simp only [Except.ok.injEq, Prod.mk.injEq] at h
    obtain ⟨h1, -, -⟩ := h
    subst h1
    exact hpl
  · split at h
    · simp at h
    · rename_i heq
      simp only [Except.ok.injEq, Prod.mk.injEq] at h
      obtain ⟨h1, -, -⟩ := h
      subst h1
      exact build_payload_le hpl heq
    · split at h
      · simp only [Except.ok.injEq, Prod.mk.injEq] at h
        obtain ⟨h1, -, -⟩ := h
        subst h1
        simp [Builder.soft_reset]
      · split at h <;>
          (simp only [Except.ok.injEq, Prod.mk.injEq] at h;
           obtain ⟨h1, -, -⟩ := h; subst h1; simp [Builder.soft_reset])

lemma decode_error {s : Builder} {buf : List Nat} {k : PanicKind}
    (hpl : s.payload_len ≤ 127)
    (h : decode s buf = .error k) : k = PanicKind.maskNotSet := by
  unfold decode at h
  split at h
  · simp at h
  · rename_i hbuf
    split at h
    · rename_i heq
      simp only [Except.error.injEq] at h
      subst h
      exact build_error hpl (fun _ => hbuf) heq
    · simp at h
    · split at h
      · simp at h
      · split at h <;> simp at h

/-- C2 (amended): for every sequence of input chunks fed to the decoder
from a fresh builder, the only panic the decode path can raise is the
explicit unmasked-frame panic of _read_buf; every defensive panic in the
builder (unknown opcode, unsupported payload length, buffer underflow) is
unreachable, so a feed that panics did so on a frame whose mask bit is
clear reaching the payload stage. -/
theorem decoder_error_only_unmasked :
    ∀ (chunks : List (List Nat)) (k : PanicKind),
      feedChunks Builder.init [] chunks = .error k → k = PanicKind.maskNotSet := by
  have aux : ∀ (chunks : List (List Nat)) (s : Builder) (pending : List Nat) (k : PanicKind),
      s.payload_len ≤ 127 → feedChunks s pending chunks = .error k →
      k = PanicKind.maskNotSet := by
    intro chunks
    induction chunks with
    | nil =>
      intro s pending k hpl h
      simp [feedChunks] at h
    | cons c cs ih =>
      intro s pending k hpl h
      unfold feedChunks at h
      split at h
      · rename_i heq
        simp only [Except.error.injEq] at h
        subst h
        exact decode_error hpl heq
      · rename_i s2 heq
        split at h
        · rename_i heq2
          simp only [Except.error.injEq] at h
          subst h
          exact ih _ _ _ (decode_payload_le hpl heq) heq2
        · simp at h
  intro chunks k h
  exact aux chunks Builder.init [] k (by decide) h


/-- C2 counterexample: feeding the complete unmasked Text frame 0x81 0x00
panics (the masking-key panic in _read_buf), refuting that build never
panics on a frame whose mask bit is clear. -/
theorem decoder_panics_on_unmasked_frame :
    feedChunks Builder.init [] [[0x81, 0x00]] = .error PanicKind.maskNotSet := rfl

/-- C2 witness: the amended theorem applied to the concrete unmasked-frame
feed. -/
theorem decoder_error_only_unmasked_witness :
    PanicKind.maskNotSet = PanicKind.maskNotSet :=
  decoder_error_only_unmasked [[0x81, 0x00]] PanicKind.maskNotSet (by rfl)

/-- C3 evaluation: a buffer holding one complete masked Text frame with
empty payload (0x81 0x80 and the 4-byte key 1 2 3 4) followed by one
trailing byte 0x07 does not make decode return the frame with the trailing
byte left in the buffer; instead the payload stage consumes the trailing
byte too, XORs it with the key (0x07 xor 0x01 = 0x06) into the payload
accumulator, and decode reports "need more data" with an empty leftover —
while the same frame without the trailing byte decodes fine. -/
theorem payload_stage_consumes_trailing_bytes :
    decode Builder.init [0x81, 0x80, 1, 2, 3, 4, 0x07]
        = .ok ({ frame_index := 0, first_byte_readed := true, fin := true, rsv := 0,
                 opcode := Opcode.Text, second_byte_readed := true, mask := true,
                 payload_len := 0, masking_key_readed := true, masking_key := [1, 2, 3, 4],
                 buf_len_readed := true, buf_len := 0, buf := [0x06] }, none, [])
      ∧ emitted (decode Builder.init [0x81, 0x80, 1, 2, 3, 4])
        = some { fin := true, rsv := 0, opcode := Opcode.Text, mask := true,
                 payload_len := 0, buf_len := 0, masking_key := [1, 2, 3, 4], buf := [] } :=
  ⟨rfl, rfl⟩

lemma applyMask_length (key : List Nat) (i : Nat) (bytes : List Nat) :
    (applyMask key i bytes).length = bytes.length := by
  induction bytes generalizing i with
  | nil => rfl
  | cons b rest ih => simp [applyMask, ih]

lemma applyMask_append (key : List Nat) (i : Nat) (A B : List Nat) :
    applyMask key i (A ++ B) = applyMask key i A ++ applyMask key (i + A.length) B := by
  induction A generalizing i with
  | nil => simp [applyMask]
  | cons a restA ih =>
    rw [List.cons_append]
    show (a ^^^ key.getD (i % 4) 0) :: applyMask key (i + 1) (restA ++ B)
        = ((a ^^^ key.getD (i % 4) 0) :: applyMask key (i + 1) restA)
          ++ applyMask key (i + (a :: restA).length) B
    rw [ih (i + 1), List.cons_append]
    have harg : i + 1 + restA.length = i + (a :: restA).length := by
      simp
      omega
    rw [harg]

lemma stage5_appendK {s : Builder} {A : List Nat} {t : Builder} {L B : List Nat}
    (h : Builder.stage5 s A = .ok (t, none, L)) :
    t.first_byte_readed = s.first_byte_readed
    ∧ t.second_byte_readed = s.second_byte_readed
    ∧ t.buf_len_readed = s.buf_len_readed
    ∧ t.mask = s.mask
    ∧ t.masking_key_readed = s.masking_key_readed
    ∧ Builder.stage5 s (A ++ B) = Builder.stage5 t (L ++ B) := by
  unfold Builder.stage5 at h
  split at h
  · simp at h
  · rename_i hmask
    split at h
    · rename_i hlen
      simp only [Except.ok.injEq, Prod.mk.injEq] at h
      obtain ⟨h1, -, h3⟩ := h
      subst h1
      subst h3
      refine ⟨rfl, rfl, rfl, rfl, rfl, ?_⟩
      unfold Builder.stage5
      rw [if_neg hmask]
      rw [if_neg (show ¬({ s with buf := s.buf ++ applyMask s.masking_key s.buf.length A } :
            Builder).mask = false from hmask)]
      simp only [List.nil_append, applyMask_append, applyMask_length, List.length_append,
                 List.append_assoc, Nat.add_assoc]
    · simp at h


lemma stage4_appendK {s : Builder} {A : List Nat} {t : Builder} {L B : List Nat}
    (h : Builder.stage4 s A = .ok (t, none, L)) :
    t.first_byte_readed = s.first_byte_readed
    ∧ t.second_byte_readed = s.second_byte_readed
    ∧ t.buf_len_readed = s.buf_len_readed
    ∧ Builder.stage4 s (A ++ B) = Builder.stage4 t (L ++ B) := by
  unfold Builder.stage4 at h
  split at h
  · rename_i hcond
    split at h
    · rename_i k0 k1 k2 k3 restA
      obtain ⟨hf, hs, hb, hm, hk, hcomp⟩ := stage5_appendK (B := B) h
      refine ⟨hf, hs, hb, ?_⟩
      have hL : Builder.stage4 s ((k0 :: k1 :: k2 :: k3 :: restA) ++ B)
          = Builder.stage5
              { s with masking_key := [k0, k1, k2, k3], masking_key_readed := true }
              (restA ++ B) := by
        unfold Builder.stage4
        rw [if_pos hcond]
        rfl
      have hR : Builder.stage4 t (L ++ B) = Builder.stage5 t (L ++ B) := by
        unfold Builder.stage4
        rw [if_neg (by simp [hm, hk])]
      rw [hL, hR]
      exact hcomp
    · simp only [Except.ok.injEq, Prod.mk.injEq] at h
      obtain ⟨h1, -, h3⟩ := h
      subst h1
      subst h3
      exact ⟨rfl, rfl, rfl, rfl⟩
  · rename_i hcond
    obtain ⟨hf, hs, hb, hm, hk, hcomp⟩ := stage5_appendK (B := B) h
    refine ⟨hf, hs, hb, ?_⟩
    have hL : Builder.stage4 s (A ++ B) = Builder.stage5 s (A ++ B) := by
      unfold Builder.stage4
      rw [if_neg hcond]
    have hR : Builder.stage4 t (L ++ B) = Builder.stage5 t (L ++ B) := by
      unfold Builder.stage4
      rw [if_neg (by simp only [hm, hk]; exact hcond)]
    rw [hL, hR]
    exact hcomp

lemma stage3_appendK {s : Builder} {A : List Nat} {t : Builder} {L B : List Nat}
    (h : Builder.stage3 s A = .ok (t, none, L)) :
    t.first_byte_readed = s.first_byte_readed
    ∧ t.second_byte_readed = s.second_byte_readed
    ∧ Builder.stage3 s (A ++ B) = Builder.stage3 t (L ++ B) := by
  unfold Builder.stage3 at h
  split at h
  · rename_i hro
    split at h
    · rename_i hple
      obtain ⟨hf, hs, hb, hcomp⟩ := stage4_appendK (B := B) h
      refine ⟨hf, hs, ?_⟩
      have hL : Builder.stage3 s (A ++ B)
          = Builder.stage4 { s with buf_len := s.payload_len, buf_len_readed := true }
              (A ++ B) := by
        unfold Builder.stage3
        rw [if_pos hro, if_pos hple]
      have hR : Builder.stage3 t (L ++ B) = Builder.stage4 t (L ++ B) := by
        unfold Builder.stage3
        rw [if_neg (by simp [hb])]
      rw [hL, hR]
      exact hcomp
    · rename_i hple
      split at h
      · rename_i hp126
        split at h
        · rename_i b0 b1 restA
          obtain ⟨hf, hs, hb, hcomp⟩ := stage4_appendK (B := B) h
          refine ⟨hf, hs, ?_⟩
          have hL : Builder.stage3 s ((b0 :: b1 :: restA) ++ B)
              = Builder.stage4 { s with buf_len := b0 * 256 + b1, buf_len_readed := true }
                  (restA ++ B) := by
            unfold Builder.stage3
            rw [if_pos hro, if_neg hple, if_pos hp126]
            rfl
          have hR : Builder.stage3 t (L ++ B) = Builder.stage4 t (L ++ B) := by
            unfold Builder.stage3
            rw [if_neg (by simp [hb])]
          rw [hL, hR]
          exact hcomp
        · simp only [Except.ok.injEq, Prod.mk.injEq] at h
          obtain ⟨h1, -, h3⟩ := h
          subst h1
          subst h3
          exact ⟨rfl, rfl, rfl⟩
      · rename_i hp126
        split at h
        · rename_i hp127
          split at h
          · rename_i b0 b1 b2 b3 b4 b5 b6 b7 restA
            obtain ⟨hf, hs, hb, hcomp⟩ := stage4_appendK (B := B) h
            refine ⟨hf, hs, ?_⟩
            have hL : Builder.stage3 s ((b0 :: b1 :: b2 :: b3 :: b4 :: b5 :: b6 :: b7 :: restA) ++ B)
                = Builder.stage4 { s with
                    buf_len := ((((((b0 * 256 + b1) * 256 + b2) * 256 + b3) * 256 + b4) * 256
                                  + b5) * 256 + b6) * 256 + b7
                    buf_len_readed := true } (restA ++ B) := by
              unfold Builder.stage3
              rw [if_pos hro, if_neg hple, if_neg hp126, if_pos hp127]
              rfl
            have hR : Builder.stage3 t (L ++ B) = Builder.stage4 t (L ++ B) := by
              unfold Builder.stage3
              rw [if_neg (by simp [hb])]
            rw [hL, hR]
            exact hcomp
          · simp only [Except.ok.injEq, Prod.mk.injEq] at h
            obtain ⟨h1, -, h3⟩ := h
            subst h1
            subst h3
            exact ⟨rfl, rfl, rfl⟩
        · simp at h
  · rename_i hro
    obtain ⟨hf, hs, hb, hcomp⟩ := stage4_appendK (B := B) h
    refine ⟨hf, hs, ?_⟩
    have hL : Builder.stage3 s (A ++ B) = Builder.stage4 s (A ++ B) := by
      unfold Builder.stage3
      rw [if_neg hro]
    have hR : Builder.stage3 t (L ++ B) = Builder.stage4 t (L ++ B) := by
      unfold Builder.stage3
      rw [if_neg (by simp only [hb]; exact hro)]
    rw [hL, hR]
    exact hcomp


lemma build_eq_stage2 {s : Builder} (hfb : s.first_byte_readed = true) (buf : List Nat) :
    Builder.build s buf = Builder.stage2 s buf := by
  unfold Builder.build
  rw [if_neg (by simp [hfb])]

lemma stage2_eq_stage3 {s : Builder} (hsb : s.second_byte_readed = true) (buf : List Nat) :
    Builder.stage2 s buf = Builder.stage3 s buf := by
  unfold Builder.stage2
  rw [if_neg (by simp [hsb])]

lemma stage2_appendK {s : Builder} {A : List Nat} {t : Builder} {L B : List Nat}
    (h : Builder.stage2 s A = .ok (t, none, L)) :
    t.first_byte_readed = s.first_byte_readed
    ∧ Builder.stage2 s (A ++ B) = Builder.stage2 t (L ++ B) := by
  unfold Builder.stage2 at h
  split at h
  · rename_i hsb
    split at h
    · simp only [Except.ok.injEq, Prod.mk.injEq] at h
      obtain ⟨h1, -, h3⟩ := h
      subst h1
      subst h3
      exact ⟨rfl, rfl⟩
    · rename_i byte restA
      split at h
      · simp at h
      · rename_i habort
        obtain ⟨hf, hs, hcomp⟩ := stage3_appendK (B := B) h
        refine ⟨hf, ?_⟩
        have hL : Builder.stage2 s ((byte :: restA) ++ B)
            = Builder.stage3 { s with mask := read_mask byte, payload_len := read_payload_len byte, second_byte_readed := true } (restA ++ B) := by
          simp only [List.cons_append]
          unfold Builder.stage2
          rw [if_pos hsb]
          show (if s.opcode.is_control = true ∧ (read_payload_len byte > 125 ∨ s.fin = false)
                then _ else _) = _
          rw [if_neg habort]
        have hR : Builder.stage2 t (L ++ B) = Builder.stage3 t (L ++ B) :=
          stage2_eq_stage3 (by rw [hs]) (L ++ B)
        rw [hL, hR]
        exact hcomp
  · rename_i hsb
    obtain ⟨hf, hs, hcomp⟩ := stage3_appendK (B := B) h
    refine ⟨hf, ?_⟩
    have hL : Builder.stage2 s (A ++ B) = Builder.stage3 s (A ++ B) := by
      unfold Builder.stage2
      rw [if_neg hsb]
    have hR : Builder.stage2 t (L ++ B) = Builder.stage3 t (L ++ B) := by
      unfold Builder.stage2
      rw [if_neg (by simp only [hs]; exact hsb)]
    rw [hL, hR]
    exact hcomp

lemma build_appendK {s : Builder} {A : List Nat} {t : Builder} {L B : List Nat}
    (h : Builder.build s A = .ok (t, none, L)) :
    Builder.build s (A ++ B) = Builder.build t (L ++ B) := by
  unfold Builder.build at h
  split at h
  · rename_i hfb
    split at h
    · simp at h
    · rename_i byte restA
      split at h
      · simp at h
      · rename_i hrsv
        split at h
        · simp at h
        · rename_i op hop
          split at h
          · simp at h
          · rename_i habort
            obtain ⟨hf, hcomp⟩ := stage2_appendK (B := B) h
            have hL : Builder.build s ((byte :: restA) ++ B)
                = Builder.stage2 { s with fin := read_fin byte, rsv := read_rsv byte, opcode := op, first_byte_readed := true } (restA ++ B) := by
              simp only [List.cons_append]
              unfold Builder.build
              rw [if_pos hfb]
              show (if read_rsv byte ≠ 0 then _ else _) = _
              rw [if_neg hrsv, hop]
              show (if (op = Opcode.RsvControl ∨ op = Opcode.RsvNonControl)
                      ∨ (s.frame_index = 0 ∧ op = Opcode.Continuation)
                      ∨ (s.frame_index > 0 ∧ (op = Opcode.Text ∨ op = Opcode.Binary))
                    then _ else _) = _
              rw [if_neg habort]
            have hR : Builder.build t (L ++ B) = Builder.stage2 t (L ++ B) :=
              build_eq_stage2 (by rw [hf]) (L ++ B)
            rw [hL, hR]
            exact hcomp
  · rename_i hfb
    obtain ⟨hf, hcomp⟩ := stage2_appendK (B := B) h
    have hL : Builder.build s (A ++ B) = Builder.stage2 s (A ++ B) := by
      unfold Builder.build
      rw [if_neg hfb]
    have hR : Builder.build t (L ++ B) = Builder.stage2 t (L ++ B) := by
      unfold Builder.build
      rw [if_neg (by simp only [hf]; exact hfb)]
    rw [hL, hR]
    exact hcomp


lemma stage5_append_error {s : Builder} {A : List Nat} {k : PanicKind} (B : List Nat)
    (h : Builder.stage5 s A = .error k) : Builder.stage5 s (A ++ B) = .error k := by
  unfold Builder.stage5 at h ⊢
  split at h
  · rename_i hmask
    rw [if_pos hmask]
    exact h
  · split at h
    · simp at h
    · simp at h

lemma stage4_append_error {s : Builder} {A : List Nat} {k : PanicKind} (B : List Nat)
    (h : Builder.stage4 s A = .error k) : Builder.stage4 s (A ++ B) = .error k := by
  unfold Builder.stage4 at h
  split at h
  · rename_i hcond
    split at h
    · rename_i k0 k1 k2 k3 restA
      have hL : Builder.stage4 s ((k0 :: k1 :: k2 :: k3 :: restA) ++ B)
          = Builder.stage5 { s with masking_key := [k0, k1, k2, k3], masking_key_readed := true } (restA ++ B) := by
        unfold Builder.stage4
        rw [if_pos hcond]
        rfl
      rw [hL]
      exact stage5_append_error B h
    · simp at h
  · rename_i hcond
    have hL : Builder.stage4 s (A ++ B) = Builder.stage5 s (A ++ B) := by
      unfold Builder.stage4
      rw [if_neg hcond]
    rw [hL]
    exact stage5_append_error B h

lemma stage3_append_error {s : Builder} {A : List Nat} {k : PanicKind} (B : List Nat)
    (h : Builder.stage3 s A = .error k) : Builder.stage3 s (A ++ B) = .error k := by
  unfold Builder.stage3 at h
  split at h
  · rename_i hro
    split at h
    · rename_i hple
      have hL : Builder.stage3 s (A ++ B)
          = Builder.stage4 { s with buf_len := s.payload_len, buf_len_readed := true } (A ++ B) := by
        unfold Builder.stage3
        rw [if_pos hro, if_pos hple]
      rw [hL]
      exact stage4_append_error B h
    · rename_i hple
      split at h
      · rename_i hp126
        split at h
        · rename_i b0 b1 restA
          have hL : Builder.stage3 s ((b0 :: b1 :: restA) ++ B)
              = Builder.stage4 { s with buf_len := b0 * 256 + b1, buf_len_readed := true } (restA ++ B) := by
            unfold Builder.stage3
            rw [if_pos hro, if_neg hple, if_pos hp126]
            rfl
          rw [hL]
          exact stage4_append_error B h
        · simp at h
      · rename_i hp126
        split at h
        · rename_i hp127
          split at h
          · rename_i b0 b1 b2 b3 b4 b5 b6 b7 restA
            have hL : Builder.stage3 s ((b0 :: b1 :: b2 :: b3 :: b4 :: b5 :: b6 :: b7 :: restA) ++ B)
                = Builder.stage4 { s with buf_len := ((((((b0 * 256 + b1) * 256 + b2) * 256 + b3) * 256 + b4) * 256 + b5) * 256 + b6) * 256 + b7, buf_len_readed := true } (restA ++ B) := by
              unfold Builder.stage3
              rw [if_pos hro, if_neg hple, if_neg hp126, if_pos hp127]
              rfl
            rw [hL]
            exact stage4_append_error B h
          · simp at h
        · rename_i hp127
          simp only [Except.error.injEq] at h
          subst h
          unfold Builder.stage3
          rw [if_pos hro, if_neg hple, if_neg hp126, if_neg hp127]
  · rename_i hro
    have hL : Builder.stage3 s (A ++ B) = Builder.stage4 s (A ++ B) := by
      unfold Builder.stage3
      rw [if_neg hro]
    rw [hL]
    exact stage4_append_error B h

lemma stage2_append_error {s : Builder} {A : List Nat} {k : PanicKind} (B : List Nat)
    (h : Builder.stage2 s A = .error k) : Builder.stage2 s (A ++ B) = .error k := by
  unfold Builder.stage2 at h
  split at h
  · rename_i hsb
    split at h
    · simp at h
    · rename_i byte restA
      split at h
      · simp at h
      · rename_i habort
        have hL : Builder.stage2 s ((byte :: restA) ++ B)
            = Builder.stage3 { s with mask := read_mask byte, payload_len := read_payload_len byte, second_byte_readed := true } (restA ++ B) := by
          simp only [List.cons_append]
          unfold Builder.stage2
          rw [if_pos hsb]
          show (if s.opcode.is_control = true ∧ (read_payload_len byte > 125 ∨ s.fin = false)
                then _ else _) = _
          rw [if_neg habort]
        rw [hL]
        exact stage3_append_error B h
  · rename_i hsb
    have hL : Builder.stage2 s (A ++ B) = Builder.stage3 s (A ++ B) := by
      unfold Builder.stage2
      rw [if_neg hsb]
    rw [hL]
    exact stage3_append_error B h

lemma build_append_error {s : Builder} {A : List Nat} {k : PanicKind} (B : List Nat)
    (hA : A ≠ []) (h : Builder.build s A = .error k) :
    Builder.build s (A ++ B) = .error k := by
  unfold Builder.build at h
  split at h
  · rename_i hfb
    split at h
    · exact absurd rfl hA
    · rename_i byte restA
      split at h
      · simp at h
      · rename_i hrsv
        split at h
        · rename_i k0 hop
          simp only [Except.error.injEq] at h
          subst h
          unfold Builder.build
          rw [if_pos hfb]
          show (if read_rsv byte ≠ 0 then _ else _) = _
          rw [if_neg hrsv, hop]
        · rename_i op hop
          split at h
          · simp at h
          · rename_i habort
            have hL : Builder.build s ((byte :: restA) ++ B)
                = Builder.stage2 { s with fin := read_fin byte, rsv := read_rsv byte, opcode := op, first_byte_readed := true } (restA ++ B) := by
              simp only [List.cons_append]
              unfold Builder.build
              rw [if_pos hfb]
              show (if read_rsv byte ≠ 0 then _ else _) = _
              rw [if_neg hrsv, hop]
              show (if (op = Opcode.RsvControl ∨ op = Opcode.RsvNonControl)
                      ∨ (s.frame_index = 0 ∧ op = Opcode.Continuation)
                      ∨ (s.frame_index > 0 ∧ (op = Opcode.Text ∨ op = Opcode.Binary))
                    then _ else _) = _
              rw [if_neg habort]
            rw [hL]
            exact stage2_append_error B h
  · rename_i hfb
    have hL : Builder.build s (A ++ B) = Builder.stage2 s (A ++ B) := by
      unfold Builder.build
      rw [if_neg hfb]
    rw [hL]
    exact stage2_append_error B h


lemma stage5_append_some {s : Builder} {A : List Nat} {t : Builder} {g : Frame}
    {L : List Nat} (B : List Nat)
    (h : Builder.stage5 s A = .ok (t, some g, L)) :
    Builder.stage5 s (A ++ B) = .ok (t, some g, L ++ B)
    ∨ (B ≠ [] ∧ ∃ u, Builder.stage5 s (A ++ B) = .ok (u, none, [])) := by
  by_cases hB : B = []
  · subst hB
    left
    simpa using h
  · right
    refine ⟨hB, ?_⟩
    unfold Builder.stage5 at h
    split at h
    · simp at h
    · rename_i hmask
      split at h
      · simp at h
      · rename_i hlen
        refine ⟨{ s with buf := s.buf ++ applyMask s.masking_key s.buf.length (A ++ B) }, ?_⟩
        unfold Builder.stage5
        rw [if_neg hmask, if_pos ?_]
        have hBlen : B.length ≠ 0 := by
          intro hc
          exact hB (List.length_eq_zero.mp hc)
        have : (s.buf ++ applyMask s.masking_key s.buf.length (A ++ B)).length
            = (s.buf ++ applyMask s.masking_key s.buf.length A).length + B.length := by
          simp [applyMask_length]
          omega
        omega

lemma stage4_append_some {s : Builder} {A : List Nat} {t : Builder} {g : Frame}
    {L : List Nat} (B : List Nat)
    (h : Builder.stage4 s A = .ok (t, some g, L)) :
    Builder.stage4 s (A ++ B) = .ok (t, some g, L ++ B)
    ∨ (B ≠ [] ∧ ∃ u, Builder.stage4 s (A ++ B) = .ok (u, none, [])) := by
  unfold Builder.stage4 at h
  split at h
  · rename_i hcond
    split at h
    · rename_i k0 k1 k2 k3 restA
      have hL : Builder.stage4 s ((k0 :: k1 :: k2 :: k3 :: restA) ++ B)
          = Builder.stage5 { s with masking_key := [k0, k1, k2, k3], masking_key_readed := true } (restA ++ B) := by
        unfold Builder.stage4
        rw [if_pos hcond]
        rfl
      rw [hL]
      exact stage5_append_some B h
    · simp at h
  · rename_i hcond
    have hL : Builder.stage4 s (A ++ B) = Builder.stage5 s (A ++ B) := by
      unfold Builder.stage4
      rw [if_neg hcond]
    rw [hL]
    exact stage5_append_some B h

lemma stage3_append_some {s : Builder} {A : List Nat} {t : Builder} {g : Frame}
    {L : List Nat} (B : List Nat)
    (h : Builder.stage3 s A = .ok (t, some g, L)) :
    Builder.stage3 s (A ++ B) = .ok (t, some g, L ++ B)
    ∨ (B ≠ [] ∧ ∃ u, Builder.stage3 s (A ++ B) = .ok (u, none, [])) := by
  unfold Builder.stage3 at h
  split at h
  · rename_i hro
    split at h
    · rename_i hple
      have hL : Builder.stage3 s (A ++ B)
          = Builder.stage4 { s with buf_len := s.payload_len, buf_len_readed := true } (A ++ B) := by
        unfold Builder.stage3
        rw [if_pos hro, if_pos hple]
      rw [hL]
      exact stage4_append_some B h
    · rename_i hple
      split at h
      · rename_i hp126
        split at h
        · rename_i b0 b1 restA
          have hL : Builder.stage3 s ((b0 :: b1 :: restA) ++ B)
              = Builder.stage4 { s with buf_len := b0 * 256 + b1, buf_len_readed := true } (restA ++ B) := by
            unfold Builder.stage3
            rw [if_pos hro, if_neg hple, if_pos hp126]
            rfl
          rw [hL]
          exact stage4_append_some B h
        · simp at h
      · rename_i hp126
        split at h
        · rename_i hp127
          split at h
          · rename_i b0 b1 b2 b3 b4 b5 b6 b7 restA
            have hL : Builder.stage3 s ((b0 :: b1 :: b2 :: b3 :: b4 :: b5 :: b6 :: b7 :: restA) ++ B)
                = Builder.stage4 { s with buf_len := ((((((b0 * 256 + b1) * 256 + b2) * 256 + b3) * 256 + b4) * 256 + b5) * 256 + b6) * 256 + b7, buf_len_readed := true } (restA ++ B) := by
              unfold Builder.stage3
              rw [if_pos hro, if_neg hple, if_neg hp126, if_pos hp127]
              rfl
            rw [hL]
            exact stage4_append_some B h
          · simp at h
        · simp at h
  · rename_i hro
    have hL : Builder.stage3 s (A ++ B) = Builder.stage4 s (A ++ B) := by
      unfold Builder.stage3
      rw [if_neg hro]
    rw [hL]
    exact stage4_append_some B h

lemma stage2_append_some {s : Builder} {A : List Nat} {t : Builder} {g : Frame}
    {L : List Nat} (B : List Nat)
    (h : Builder.stage2 s A = .ok (t, some g, L)) :
    Builder.stage2 s (A ++ B) = .ok (t, some g, L ++ B)
    ∨ (B ≠ [] ∧ ∃ u, Builder.stage2 s (A ++ B) = .ok (u, none, [])) := by
  unfold Builder.stage2 at h
  split at h
  · rename_i hsb
    split at h
    · simp at h
    · rename_i byte restA
      split at h
      · rename_i habort
        left
        simp only [Except.ok.injEq, Prod.mk.injEq] at h
        obtain ⟨h1, h2, h3⟩ := h
        subst h1
        subst h3
        simp only [List.cons_append]
        unfold Builder.stage2
        rw [if_pos hsb]
        show (if s.opcode.is_control = true ∧ (read_payload_len byte > 125 ∨ s.fin = false)
              then _ else _) = _
        rw [if_pos habort]
        rw [h2]
      · rename_i habort
        have hL : Builder.stage2 s ((byte :: restA) ++ B)
            = Builder.stage3 { s with mask := read_mask byte, payload_len := read_payload_len byte, second_byte_readed := true } (restA ++ B) := by
          simp only [List.cons_append]
          unfold Builder.stage2
          rw [if_pos hsb]
          show (if s.opcode.is_control = true ∧ (read_payload_len byte > 125 ∨ s.fin = false)
                then _ else _) = _
          rw [if_neg habort]
        rw [hL]
        exact stage3_append_some B h
  · rename_i hsb
    have hL : Builder.stage2 s (A ++ B) = Builder.stage3 s (A ++ B) := by
      unfold Builder.stage2
      rw [if_neg hsb]
    rw [hL]
    exact stage3_append_some B h

lemma build_append_some {s : Builder} {A : List Nat} {t : Builder} {g : Frame}
    {L : List Nat} (B : List Nat)
    (h : Builder.build s A = .ok (t, some g, L)) :
    Builder.build s (A ++ B) = .ok (t, some g, L ++ B)
    ∨ (B ≠ [] ∧ ∃ u, Builder.build s (A ++ B) = .ok (u, none, [])) := by
  unfold Builder.build at h
  split at h
  · rename_i hfb
    split at h
    · simp at h
    · rename_i byte restA
      split at h
      · rename_i hrsv
        left
        simp only [Except.ok.injEq, Prod.mk.injEq] at h
        obtain ⟨h1, h2, h3⟩ := h
        subst h1
        subst h3
        simp only [List.cons_append]
        unfold Builder.build
        rw [if_pos hfb]
        show (if read_rsv byte ≠ 0 then _ else _) = _
        rw [if_pos hrsv, h2]
      · rename_i hrsv
        split at h
        · simp at h
        · rename_i op hop
          split at h
          · rename_i habort
            left
            simp only [Except.ok.injEq, Prod.mk.injEq] at h
            obtain ⟨h1, h2, h3⟩ := h
            subst h1
            subst h3
            simp only [List.cons_append]
            unfold Builder.build
            rw [if_pos hfb]
            show (if read_rsv byte ≠ 0 then _ else _) = _
            rw [if_neg hrsv, hop]
            show (if (op = Opcode.RsvControl ∨ op = Opcode.RsvNonControl)
                    ∨ (s.frame_index = 0 ∧ op = Opcode.Continuation)
                    ∨ (s.frame_index > 0 ∧ (op = Opcode.Text ∨ op = Opcode.Binary))
                  then _ else _) = _
            rw [if_pos habort, h2]
          · rename_i habort
            have hL : Builder.build s ((byte :: restA) ++ B)
                = Builder.stage2 { s with fin := read_fin byte, rsv := read_rsv byte, opcode := op, first_byte_readed := true } (restA ++ B) := by
              simp only [List.cons_append]
              unfold Builder.build
              rw [if_pos hfb]
              show (if read_rsv byte ≠ 0 then _ else _) = _
              rw [if_neg hrsv, hop]
              show (if (op = Opcode.RsvControl ∨ op = Opcode.RsvNonControl)
                      ∨ (s.frame_index = 0 ∧ op = Opcode.Continuation)
                      ∨ (s.frame_index > 0 ∧ (op = Opcode.Text ∨ op = Opcode.Binary))
                    then _ else _) = _
              rw [if_neg habort]
            rw [hL]
            exact stage2_append_some B h
  · rename_i hfb
    have hL : Builder.build s (A ++ B) = Builder.stage2 s (A ++ B) := by
      unfold Builder.build
      rw [if_neg hfb]
    rw [hL]
    exact stage2_append_some B h


lemma decode_some_build {s : Builder} {buf : List Nat} {t : Builder} {f : Frame}
    {L : List Nat} (h : decode s buf = .ok (t, some f, L)) :
    ∃ s1, Builder.build s buf = .ok (s1, some f, L) := by
  unfold decode at h
  split at h
  · simp at h
  · split at h
    · simp at h
    · simp at h
    · rename_i s1 frame rest heq
      split at h
      · simp only [Except.ok.injEq, Prod.mk.injEq, Option.some.injEq] at h
        obtain ⟨-, h2, h3⟩ := h
        subst h2
        subst h3
        exact ⟨s1, heq⟩
      · split at h
        · simp only [Except.ok.injEq, Prod.mk.injEq, Option.some.injEq] at h
          obtain ⟨-, h2, h3⟩ := h
          subst h2
          subst h3
          exact ⟨s1, heq⟩
        · simp only [Except.ok.injEq, Prod.mk.injEq, Option.some.injEq] at h
          obtain ⟨-, h2, h3⟩ := h
          subst h2
          subst h3
          exact ⟨s1, heq⟩

lemma decode_split {s : Builder} {A B : List Nat} {t : Builder} {f : Frame}
    (hB : B ≠ []) (h : decode s (A ++ B) = .ok (t, some f, [])) :
    ∃ s2 L2, decode s A = .ok (s2, none, L2)
      ∧ decode s2 (L2 ++ B) = .ok (t, some f, []) := by
  by_cases hA : A = []
  · subst hA
    exact ⟨s, [], rfl, by simpa using h⟩
  · have hAB : A ++ B ≠ [] := fun hc => hA (List.append_eq_nil.mp hc).1
    obtain ⟨sX, hbX⟩ := decode_some_build h
    rcases hbuild : Builder.build s A with k | ⟨s1, mf, L1⟩
    · exfalso
      have herr := build_append_error B hA hbuild
      rw [herr] at hbX
      simp at hbX
    · cases mf with
      | none =>
        have hcomp := build_appendK (B := B) hbuild
        have hL1B : L1 ++ B ≠ [] := fun hc => hB (List.append_eq_nil.mp hc).2
        refine ⟨s1, L1, ?_, ?_⟩
        · unfold decode
          rw [if_neg hA, hbuild]
        · unfold decode at h ⊢
          rw [if_neg hAB] at h
          rw [if_neg hL1B, ← hcomp]
          exact h
      | some g =>
        exfalso
        rcases build_append_some B hbuild with hleft | ⟨hBne, u, hu⟩
        · rw [hleft] at hbX
          simp only [Except.ok.injEq, Prod.mk.injEq] at hbX
          exact hB (List.append_eq_nil.mp hbX.2.2).2
        · rw [hu] at hbX
          simp at hbX

lemma feed_empty_chunks : ∀ (cs : List (List Nat)), cs.flatten = [] →
    ∀ s : Builder, feedChunks s [] cs = .ok (s, [], []) := by
  intro cs
  induction cs with
  | nil =>
    intro h s
    rfl
  | cons c rest ih =>
    intro h s
    rw [List.flatten_cons] at h
    obtain ⟨hc1, hc2⟩ := List.append_eq_nil.mp h
    subst hc1
    have hd : decode s [] = .ok (s, none, []) := rfl
    simp [feedChunks, hd, ih hc2 s]

/-- C7: a masked frame whose bytes decode in one call to a single frame
with nothing left over decodes to exactly the same frame when its bytes
are split across decode calls in any way (in particular one byte per
call), because each payload byte is XORed with the masking-key byte at its
global payload offset mod 4. -/
theorem masked_frame_chunking_invariant (s0 : Builder) (bytes : List Nat) (t : Builder)
    (f : Frame) (H : decode s0 bytes = .ok (t, some f, []))
    (chunks : List (List Nat)) (hc : chunks.flatten = bytes) :
    feedChunks s0 [] chunks = .ok (t, [f], []) := by
  have hbytes : bytes ≠ [] := by
    intro hb
    subst hb
    rw [show decode s0 [] = .ok (s0, none, []) from rfl] at H
    simp at H
  have aux : ∀ (cs : List (List Nat)) (s : Builder) (L : List Nat),
      cs.flatten ≠ [] → decode s (L ++ cs.flatten) = .ok (t, some f, []) →
      feedChunks s L cs = .ok (t, [f], []) := by
    intro cs
    induction cs with
    | nil =>
      intro s L hne h
      exact absurd rfl hne
    | cons c rest ih =>
      intro s L hne h
      by_cases hr : rest.flatten = []
      · have hLc : decode s (L ++ c) = .ok (t, some f, []) := by
          have hjoin : (c :: rest).flatten = c := by simp [hr]
          rw [hjoin] at h
          exact h
        simp [feedChunks, hLc, feed_empty_chunks rest hr t]
      · have hsplit : decode s ((L ++ c) ++ rest.flatten) = .ok (t, some f, []) := by
          rw [List.append_assoc]
          simpa using h
        obtain ⟨s2, L2, hd1, hd2⟩ := decode_split hr hsplit
        have hrec := ih s2 L2 hr hd2
        simp [feedChunks, hd1, hrec]
  exact aux chunks s0 [] (by rw [hc]; exact hbytes) (by rw [hc]; simpa using H)

/-- C7 witness: the chunking theorem applied to a concrete masked Text
frame delivered one byte per decode call. -/
theorem masked_frame_chunking_invariant_witness :
    feedChunks Builder.init [] [[0x81], [0x81], [1], [2], [3], [4], [0x60]]
      = .ok ({ Builder.init with buf_len := 1 },
             [{ fin := true, rsv := 0, opcode := Opcode.Text, mask := true,
                payload_len := 1, buf_len := 1, masking_key := [1, 2, 3, 4],
                buf := [0x61] }],
             []) :=
  masked_frame_chunking_invariant Builder.init [0x81, 0x81, 1, 2, 3, 4, 0x60]
    { Builder.init with buf_len := 1 }
    { fin := true, rsv := 0, opcode := Opcode.Text, mask := true,
      payload_len := 1, buf_len := 1, masking_key := [1, 2, 3, 4], buf := [0x61] }
    (by rfl) [[0x81], [0x81], [1], [2], [3], [4], [0x60]] (by rfl)

end Websocket
